import Mathlib

/-!
Verification of the job orchestration core of `api-wrapper/app.js`
(async REST bridge supervising `meet-teams-bot` worker processes).

Strings are modelled as `List Char`.  JavaScript `undefined` is modelled
with `Option`; machine timestamps (`Date.now()`, `mtimeMs`) as `Nat`.
The regular expressions of the source are embedded through a small
backtracking matcher (`matchSeq` / `execRegex`) whose patterns are
transcribed one to one from the source literals.
-/

namespace GonFung

/-- Strings of the JS runtime, as lists of characters. -/
abbrev Str := List Char

/-- Coerce a Lean string literal into the model's string type. -/
def str (s : String) : Str := s.data

/-- The escape character `\x1b` that starts an ANSI sequence. -/
def escChar : Char := Char.ofNat 27

/-- Character class `[0-9;]` used inside an ANSI SGR sequence. -/
def sgrBody (c : Char) : Bool := ('0' ≤ c && c ≤ '9') || c = ';'

/-- After an `\x1b`, try to consume `\[[0-9;]*m`; on success return the
remaining input.  This is the (deterministic) matching of the source regex
`/\x1b\[[0-9;]*m/` at one position: the class `[0-9;]` cannot contain `m`,
so greedy matching needs no backtracking. -/
def sgrTail (cs : Str) : Option Str :=
  match cs with
  | [] => none
  | c :: rest =>
    if c = '[' then
      let body := rest.dropWhile sgrBody
      if body.head? = some 'm' then some body.tail else none
    else none

theorem sgrTail_length {cs after : Str} (h : sgrTail cs = some after) :
    after.length < cs.length := by
  cases cs with
  | nil => simp [sgrTail] at h
  | cons c rest =>
    simp only [sgrTail] at h
    split at h
    · split at h
      · next hhead =>
        simp only [Option.some.injEq] at h
        subst h
        have hsuf := (List.dropWhile_suffix (l := rest) sgrBody).length_le
        cases hdw : rest.dropWhile sgrBody with
        | nil => rw [hdw] at hhead; simp at hhead
        | cons d tl =>
          rw [hdw] at hsuf
          simp only [List.length_cons, List.tail_cons] at hsuf ⊢
          omega
      · simp at h
    · simp at h

/-- `stripAnsi`, the source's
`(s) => s.replace(/\x1b\[[0-9;]*m/g, "")`:
scan left to right, delete every SGR escape sequence, keep everything else. -/
def stripAnsi : Str → Str
  | [] => []
  | c :: rest =>
    if c = escChar then
      match h : sgrTail rest with
      | some after => stripAnsi after
      | none => c :: stripAnsi rest
    else c :: stripAnsi rest
termination_by cs => cs.length
decreasing_by
  · simp only [List.length_cons]
    exact Nat.lt_succ_of_lt (sgrTail_length h)
  · simp
  · simp

/-- Hex digit or dash, case-insensitive: the class `[A-F0-9-]` under `/i`. -/
def hexDash (c : Char) : Bool :=
  ('0' ≤ c && c ≤ '9') || ('A' ≤ c && c ≤ 'F') || ('a' ≤ c && c ≤ 'f') || c = '-'

/-- Hex digit, case-insensitive: the class `[A-F0-9]` under `/i`. -/
def hexDigit (c : Char) : Bool :=
  ('0' ≤ c && c ≤ '9') || ('A' ≤ c && c ≤ 'F') || ('a' ≤ c && c ≤ 'f')

/-- The class `[: ]`. -/
def colonSpace (c : Char) : Bool := c = ':' || c = ' '

/-- JS `\s` (ASCII part plus NBSP and BOM; the exotic Unicode space
separators never occur in the properties proved here). -/
def jsWs (c : Char) : Bool :=
  c = ' ' || c = '\t' || c = '\n' || c = '\r' ||
  c = Char.ofNat 11 || c = Char.ofNat 12 || c = Char.ofNat 0xa0 || c = Char.ofNat 0xfeff

/-- The class `[A-Za-z0-9_.-]` of the container-name regex. -/
def nameChar (c : Char) : Bool :=
  ('0' ≤ c && c ≤ '9') || ('A' ≤ c && c ≤ 'Z') || ('a' ≤ c && c ≤ 'z') ||
  c = '_' || c = '.' || c = '-'

/-- One element of an embedded regular expression.  Only the constructs
appearing in the source patterns are represented. -/
inductive RItem where
  /-- a literal run of characters, compared case-insensitively (`/i`) -/
  | lit (s : Str)
  /-- `cls*`, greedy with backtracking -/
  | star (cls : Char → Bool)
  /-- `cls+`, greedy with backtracking -/
  | plus (cls : Char → Bool)
  /-- capturing group `(cls){n}` of exactly `n` class characters -/
  | grp (cls : Char → Bool) (n : Nat)
  /-- capturing group `(cls)+`, greedy with backtracking -/
  | grpPlus (cls : Char → Bool)

/-- Case-insensitive literal matching; returns the rest of the input. -/
def litCI : Str → Str → Option Str
  | [], cs => some cs
  | _ :: _, [] => none
  | p :: ps, c :: cs => if p.toLower = c.toLower then litCI ps cs else none

/-- Match a sequence of regex elements at the start of the input, with
standard greedy backtracking, threading the (single) capture.  Returns the
value of capture group 1 when the whole sequence matches. -/
def matchSeq : List RItem → Str → Option Str → Option Str
  | [], _, cap => some (cap.getD [])
  | .lit s :: rest, cs, cap =>
      match litCI s cs with
      | some cs' => matchSeq rest cs' cap
      | none => none
  | .star cls :: rest, cs, cap =>
      let m := (cs.takeWhile cls).length
      (List.range (m + 1)).reverse.findSome? fun k => matchSeq rest (cs.drop k) cap
  | .plus cls :: rest, cs, cap =>
      let m := (cs.takeWhile cls).length
      (List.range' 1 m).reverse.findSome? fun k => matchSeq rest (cs.drop k) cap
  | .grp cls n :: rest, cs, cap =>
      let capd := cs.take n
      if capd.length = n ∧ capd.all cls then matchSeq rest (cs.drop n) (some capd)
      else none
  | .grpPlus cls :: rest, cs, cap =>
      let m := (cs.takeWhile cls).length
      (List.range' 1 m).reverse.findSome? fun k =>
        matchSeq rest (cs.drop k) (some (cs.take k))

/-- Leftmost match of a regex (a list of alternatives, tried in order at
every start position, as JS `String.match` does) against the input;
returns capture group 1. -/
def execRegex (alts : List (List RItem)) (cs : Str) : Option Str :=
  match alts.findSome? (fun items => matchSeq items cs none) with
  | some cap => some cap
  | none =>
    match cs with
    | [] => none
    | _ :: rest => execRegex alts rest
termination_by cs.length
decreasing_by simp

/-- The source's ordered `UUID_PATTERNS` list, one alternative each:
`/\/recordings\/([A-F0-9-]{36})\//i`,
`/bot UUID[^A-F0-9]*([A-F0-9-]{36})/i`,
`/session ID[: ]+([A-F0-9-]{36})/i`,
`/"bot_uuid"\s*:\s*"([A-F0-9-]{36})"/i`,
`/"id"\s*:\s*"([A-F0-9-]{36})"/i`. -/
def UUID_PATTERNS : List (List RItem) :=
  [ [.lit (str "/recordings/"), .grp hexDash 36, .lit (str "/")],
    [.lit (str "bot UUID"), .star (fun c => !hexDigit c), .grp hexDash 36],
    [.lit (str "session ID"), .plus colonSpace, .grp hexDash 36],
    [.lit (str "\"bot_uuid\""), .star jsWs, .lit (str ":"), .star jsWs,
      .lit (str "\""), .grp hexDash 36, .lit (str "\"")],
    [.lit (str "\"id\""), .star jsWs, .lit (str ":"), .star jsWs,
      .lit (str "\""), .grp hexDash 36, .lit (str "\"")] ]

/-- `extractUuidFrom(line)`: strip ANSI sequences, then try the UUID
patterns in order; the first pattern that matches anywhere yields its
capture. -/
def extractUuidFrom (line : Str) : Option Str :=
  let s := stripAnsi line
  UUID_PATTERNS.findSome? fun p => execRegex [p] s

/-- The container-name regex
`/(?::\:container_name::|CONTAINER_NAME:\s*)([A-Za-z0-9_.-]+)/i`,
with the leading alternation unfolded into two full alternatives. -/
def CONTAINER_NAME_RE : List (List RItem) :=
  [ [.lit (str "::container_name::"), .grpPlus nameChar],
    [.lit (str "CONTAINER_NAME:"), .star jsWs, .grpPlus nameChar] ]

/-- `isUuidDirName(name)`: the anchored test `/^[A-F0-9-]{36}$/i`. -/
def isUuidDirName (name : Str) : Bool :=
  name.length = 36 && name.all hexDash

/-- The source's `cname.replace` of the anchored pattern `meetbot-`:
drop a leading `meetbot-` when present, else return `cname` unchanged. -/
def dropMeetbotTag (cname : Str) : Str :=
  if (str "meetbot-").isPrefixOf cname then cname.drop 8 else cname

unseal stripAnsi execRegex List.merge List.mergeSort

/-- Job status strings of the source:
`pending`, `running`, `stopping`, `done`, `error`, `timeout`. -/
inductive Status where
  | pending | running | stopping | done | error | timeout
  deriving Repr, DecidableEq

/-- The job record stored in the `JOBS` map.  Fields that Javascript may
leave `undefined` are `Option`s; timestamps are `Nat` milliseconds.
`id`, `pid`, `bot_name`, `extra` and the live client set are not part of
any verified property and are elided (`clients` is tracked at the
supervision-state level, where delivery order is observable). -/
structure Job where
  status : Option Status := none
  createdAt : Option Nat := none
  updatedAt : Option Nat := none
  startedAt : Option Nat := none
  meeting_url : Option Str := none
  uuid : Option Str := none
  containerName : Option Str := none
  exitCode : Option Int := none
  signal : Option Str := none
  error : Option Str := none
  recordings : Option Str := none
  recordingsDir : Option Str := none
  hostPort8080 : Option Nat := none
  logs : List Str := []
  deriving Repr, DecidableEq

/-- A partial job object, the `patch` argument of `setJob`.  A `none`
field is absent from the patch.  `signal` is two-level because the source
explicitly patches `signal: null` (a present property holding null);
`logs` is patched only at creation (`logs: []`). -/
structure Patch where
  status : Option Status := none
  createdAt : Option Nat := none
  updatedAt : Option Nat := none
  startedAt : Option Nat := none
  meeting_url : Option Str := none
  uuid : Option Str := none
  containerName : Option Str := none
  exitCode : Option Int := none
  signal : Option (Option Str) := none
  error : Option Str := none
  recordings : Option Str := none
  recordingsDir : Option Str := none
  hostPort8080 : Option Nat := none
  logs : Option (List Str) := none
  deriving Repr, DecidableEq

/-- `setJob(id, patch)`:
`const j = JOBS.get(id) || {}; const merged = { updatedAt: now, ...j, ...patch }`.
Spread semantics: a later spread overrides an earlier one, so a defined
field of `j` overrides the leading `updatedAt: now` default, and a defined
field of `patch` overrides both.  `j?` is `JOBS.get(id)` (`none` when the
id is not in the map). -/
def setJob (now : Nat) (j? : Option Job) (p : Patch) : Job :=
  let j := j?.getD {}
  { status := p.status <|> j.status,
    createdAt := p.createdAt <|> j.createdAt,
    updatedAt := p.updatedAt <|> j.updatedAt <|> some now,
    startedAt := p.startedAt <|> j.startedAt,
    meeting_url := p.meeting_url <|> j.meeting_url,
    uuid := p.uuid <|> j.uuid,
    containerName := p.containerName <|> j.containerName,
    exitCode := p.exitCode <|> j.exitCode,
    signal := p.signal.getD j.signal,
    error := p.error <|> j.error,
    recordings := p.recordings <|> j.recordings,
    recordingsDir := p.recordingsDir <|> j.recordingsDir,
    hostPort8080 := p.hostPort8080 <|> j.hostPort8080,
    logs := p.logs.getD j.logs }

/-- The rolling log-buffer capacity (`5000` in `pushLog`). -/
def LOG_CAP : Nat := 5000

/-- The buffer part of `pushLog(id, line)`:
`(j.logs ||= []).push(line); if (j.logs.length > 5000) j.logs.splice(0, j.logs.length - 5000)`.
`splice(0, n)` removes the first `n` (oldest) lines. -/
def pushLogBuffer (logs : List Str) (line : Str) : List Str :=
  let logs1 := logs ++ [line]
  if logs1.length > LOG_CAP then logs1.drop (logs1.length - LOG_CAP) else logs1

/-- `pushLog(id, line)` at the job level: `const j = setJob(id, {})`, then
append to the buffer (the broadcast to live clients is modelled on the
supervision state, which records delivery order). -/
def pushLog (now : Nat) (j? : Option Job) (line : Str) : Job :=
  let j := setJob now j? {}
  { j with logs := pushLogBuffer j.logs line }

/-- One recordings-directory entry: name and `mtimeMs`. -/
abbrev DirEntry := Str × Nat

/-- Javascript `a || b` over possibly-undefined numbers (`undefined` and
`0` are both falsy); the result is used only in falsy-sensitive spots, so
`undefined` collapses to `0`. -/
def jsOrNat (a b : Option Nat) : Nat :=
  match a with
  | some x => if x = 0 then b.getD 0 else x
  | none => b.getD 0

/-- `findLatestUuidFromRecordingsSince(baseDir, sinceMs)`: among the
directory entries whose name passes `isUuidDirName`, keep those with
`!sinceMs || t >= sinceMs - 5000`, sort by modification time descending
(stable, as `Array.prototype.sort`), and return the first name.
The directory listing is an explicit input (`fs` is external). -/
def findLatestUuidFromRecordingsSince (dir : List DirEntry) (sinceMs : Nat) : Option Str :=
  let names := dir.filter fun e => isUuidDirName e.1
  let fresh :=
    (names.filter fun it => sinceMs = 0 || it.2 ≥ sinceMs - 5000).mergeSort
      fun a b => b.2 ≤ a.2
  fresh.head?.map (·.1)

/-- Environment-derived configuration of the wrapper.
`meetBotBase = none` models an unset or empty `MEET_BOT_BASE` (falsy). -/
structure Config where
  idleMs : Nat
  maxMs : Nat
  meetBotBase : Option Str
  allowDockerStop : Bool
  defaultRecordingsDir : Str
  deriving Repr, DecidableEq

/-- Success/failure of each external side effect a stop strategy performs
(network and docker are outside the model, so their outcomes are inputs). -/
structure StopOracles where
  /-- the `POST {MEET_BOT_BASE}/stop_record` call resolves -/
  baseHttpOk : Bool
  /-- `dockerExecStopRecord` returns (some in-container tool exited 0) -/
  dockerExecOk : Bool
  /-- `tryHttpStopByContainer` resolves (host-port or container IP) -/
  containerHttpOk : Bool
  /-- `docker stop <name>` exits 0 -/
  dockerStopOk : Bool
  /-- `process.kill(pid, "SIGTERM")` does not throw -/
  termSignalOk : Bool
  deriving Repr, DecidableEq

/-- Which stop strategy answered the request (the `via` field of the
response). -/
inductive StopVia where
  | httpBase | dockerExec | httpContainer | dockerStopName | localKill
  deriving Repr, DecidableEq

/-- Result of `POST /jobs/:id/stop`: the successful strategy (`none` is
the 502 `stop_unavailable` answer), the strategies whose bodies ran, and
the job record afterwards. -/
structure StopResult where
  outcome : Option StopVia
  attempted : List StopVia
  job : Job
  deriving Repr, DecidableEq

/-- The stop cascade of `app.post("/jobs/:id/stop")`, strategies in source
order.  `payload` is null unless the job has a `uuid` or a `meeting_url`;
strategies 1–3 post it, so they are skipped without it.  A strategy's
failure only logs a warning and falls through; the first success patches
`status: "stopping"` and responds.  Strategy 5 responds success whenever a
live child handle exists (even when signalling it failed, the response is
a 202 with `via: "local_kill"`). -/
def stopCascade (cfg : Config) (now : Nat) (childExists : Bool) (o : StopOracles)
    (j : Job) : StopResult :=
  let payload := j.uuid.isSome || j.meeting_url.isSome
  let g1 := cfg.meetBotBase.isSome && payload
  let a1 : List StopVia := if g1 then [.httpBase] else []
  if g1 && o.baseHttpOk then
    { outcome := some .httpBase, attempted := a1,
      job := setJob now (some j) { status := some .stopping } }
  else
    let g2 := j.containerName.isSome && payload
    let a2 := a1 ++ if g2 then [StopVia.dockerExec] else []
    if g2 && o.dockerExecOk then
      { outcome := some .dockerExec, attempted := a2,
        job := setJob now (some j) { status := some .stopping } }
    else
      let g3 := j.containerName.isSome && payload
      let a3 := a2 ++ if g3 then [StopVia.httpContainer] else []
      if g3 && o.containerHttpOk then
        { outcome := some .httpContainer, attempted := a3,
          job := setJob now (some j) { status := some .stopping } }
      else
        let g4 := cfg.allowDockerStop && j.containerName.isSome
        let a4 := a3 ++ if g4 then [StopVia.dockerStopName] else []
        if g4 && o.dockerStopOk then
          { outcome := some .dockerStopName, attempted := a4,
            job := setJob now (some j) { status := some .stopping } }
        else
          let a5 := a4 ++ if childExists then [StopVia.localKill] else []
          if childExists then
            { outcome := some .localKill, attempted := a5,
              job := setJob now (some j) { status := some .stopping } }
          else
            { outcome := none, attempted := a5, job := j }

/-- One line of the `onData` discovery loop.  `jcur` is the snapshot
`JOBS.get(id)` taken once at the top of the loop body, so the guards
`!jcur.uuid` / `!jcur.containerName` read the state from before the line's
own writes. -/
def processLine (now : Nat) (j : Job) (line : Str) : Job :=
  let jcur := j
  let j1 :=
    if jcur.uuid.isNone then
      match extractUuidFrom line with
      | some maybe => setJob now (some j) { uuid := some maybe }
      | none => j
    else j
  match execRegex CONTAINER_NAME_RE line with
  | some cname =>
    if jcur.containerName.isNone then
      let j2 := setJob now (some j1) { containerName := some cname }
      let j3 := setJob now (some j2) { containerName := some cname }
      let maybe := dropMeetbotTag cname
      if jcur.uuid.isNone && isUuidDirName maybe then
        setJob now (some j3) { uuid := some maybe }
      else j3
    else j1
  | none => j1

/-- Supervision state of one job: the stored job record plus the
closure-local variables of the `POST /jobs` handler and ghost fields that
record observable history (`killedIdle`/`killedMax`: the guard sent
`SIGKILL`; `allLines`: every line ever pushed; `sent`: SSE frames written
to subscribers, in write order). -/
structure SupState where
  job : Job
  lastActivity : Nat
  startedAtLoc : Nat
  guardActive : Bool
  childInMap : Bool
  exitCodeFinal : Option Int := none
  exitSignalFinal : Option Str := none
  killedIdle : Bool := false
  killedMax : Bool := false
  clients : List Nat := []
  allLines : List Str := []
  sent : List (Nat × Str) := []
  deriving Repr, DecidableEq

/-- The SSE framing of one pushed line: `res.write("data: " + line + "\n\n")`. -/
def sseFrame (line : Str) : Str := str "data: " ++ line ++ str "\n\n"

/-- `pushLog` at the supervision level: update the job buffer and write
the SSE frame to every registered client, in registration order. -/
def pushLogS (now : Nat) (s : SupState) (line : Str) : SupState :=
  { s with
    job := pushLog now (some s.job) line,
    allLines := s.allLines ++ [line],
    sent := s.sent ++ s.clients.map fun c => (c, sseFrame line) }

/-- External events dispatched into one job's supervision unit. -/
inductive Event where
  /-- one firing of the 5s guard interval -/
  | tick (now : Nat)
  /-- a chunk on stdout or stderr (`src` is the mirror tag) -/
  | data (now : Nat) (src : Str) (chunk : Str)
  /-- the child `error` event -/
  | childErr (now : Nat) (msg : Str)
  /-- the child `exit` event -/
  | exited (code : Option Int) (sig : Option Str)
  /-- the child `close` event; `dir` is the recordings listing seen by the
  fallback scan (the ~500ms grace sleep has no discrete-model content) -/
  | closed (now : Nat) (code : Option Int) (sig : Option Str) (dir : List DirEntry)
  /-- a `POST /jobs/:id/stop` request -/
  | stopReq (now : Nat) (o : StopOracles)
  /-- Modelled from the spec: registration of a log-stream subscriber.
  The SSE endpoint handler is absent from the sources (only its
  auth-exemption and the `pushLog` fan-out remain); per §4.3 subscription
  delivers only lines appended after registration, with no backfill. -/
  | subscribe (cid : Nat)

/-- The guard-interval body: absolute timeout first, then idle timeout;
either kills the child, patches `status: "timeout"` with the reason,
pushes a log line and clears the interval. -/
def tickStep (cfg : Config) (now : Nat) (s : SupState) : SupState :=
  if !s.guardActive then s
  else
    let aliveFor := now - s.startedAtLoc
    let idleFor := now - s.lastActivity
    if aliveFor > cfg.maxMs then
      let s1 := { s with
        killedMax := true,
        job := setJob now (some s.job)
          { status := some .timeout, error := some (str "max_time_exceeded") } }
      { pushLogS now s1 (str "timeout -> killed (max)") with guardActive := false }
    else if idleFor > cfg.idleMs then
      let s1 := { s with
        killedIdle := true,
        job := setJob now (some s.job)
          { status := some .timeout, error := some (str "idle_timeout") } }
      { pushLogS now s1 (str "timeout -> killed (idle)") with guardActive := false }
    else s

/-- The `child.once("close")` reconciliation on the job record, returning
the patched job and the log line the handler pushes.  `codeEff`/`sigEff`
are the already-combined `exitCodeFinal ?? code` / `exitSignalFinal ?? signal`. -/
def closeJob (cfg : Config) (now : Nat) (codeEff : Option Int) (sigEff : Option Str)
    (dir : List DirEntry) (j0 : Job) : Job × Str :=
  let j1 :=
    if j0.uuid.isNone && codeEff == some 0 && sigEff.isNone then
      let since := jsOrNat j0.startedAt j0.createdAt
      match findLatestUuidFromRecordingsSince dir since with
      | some fallback => setJob now (some j0) { uuid := some fallback }
      | none => j0
    else j0
  if codeEff == some 0 && sigEff.isNone && j1.uuid.isSome then
    (setJob now (some j1)
      { status := some .done, exitCode := some 0, signal := some none,
        recordings := some ((j1.recordingsDir.getD cfg.defaultRecordingsDir) ++
          str "/" ++ j1.uuid.getD []) },
     str "done")
  else
    let reason :=
      match sigEff with
      | some sg => str "killed_by_" ++ sg
      | none => if codeEff == some 0 then str "completed_without_uuid" else str "bot_failed"
    (setJob now (some j1)
      { status := some .error, exitCode := some (codeEff.getD (-1)),
        signal := some sigEff, error := some reason },
     str "error " ++ reason)

/-- One supervision step: dispatch of a single event, transcribing the
source's event handlers. -/
def step (cfg : Config) (s : SupState) (e : Event) : SupState :=
  match e with
  | .tick now => tickStep cfg now s
  | .data now src chunk =>
    let s0 := { s with lastActivity := now }
    let lines := chunk.splitOn '\n'
    let s1 := (lines.filter (· ≠ [])).foldl
      (fun acc l => pushLogS now acc (src ++ [' '] ++ l)) s0
    let j2 := lines.foldl (processLine now) s1.job
    { s1 with job := j2 }
  | .childErr now msg =>
    let s1 := { s with
      job := setJob now (some s.job) { status := some .error, error := some msg } }
    pushLogS now s1 (str "error " ++ msg)
  | .exited code sig => { s with exitCodeFinal := code, exitSignalFinal := sig }
  | .closed now code sig dir =>
    let s0 := { s with guardActive := false, childInMap := false }
    let codeEff := s.exitCodeFinal <|> code
    let sigEff := s.exitSignalFinal <|> sig
    let (j', line) := closeJob cfg now codeEff sigEff dir s0.job
    pushLogS now { s0 with job := j' } line
  | .stopReq now o =>
    { s with job := (stopCascade cfg now s.childInMap o s.job).job }
  | .subscribe cid =>
    { s with clients := if cid ∈ s.clients then s.clients else s.clients ++ [cid] }

/-- A run of the supervision unit over a sequence of events. -/
def run (cfg : Config) (s : SupState) (evs : List Event) : SupState :=
  evs.foldl (step cfg) s

/-- The synchronous part of `POST /jobs` before `spawn`: the creation
patch (`status: "pending"`, identity and timestamps, empty log buffer). -/
def createJob (now : Nat) (meetingUrl : Str) (recDir : Str) : Job :=
  setJob now none
    { status := some .pending, meeting_url := some meetingUrl,
      createdAt := some now, updatedAt := some now, startedAt := some now,
      recordingsDir := some recDir, logs := some [] }

/-- Right after `spawn`: `CHILDREN.set(id, child); setJob(id, { status: "running", pid })`,
and initialization of the closure-locals `lastActivity`/`startedAt` and the
guard interval. -/
def startJob (now : Nat) (j : Job) : SupState :=
  { job := setJob now (some j) { status := some .running },
    lastActivity := now, startedAtLoc := now,
    guardActive := true, childInMap := true }

/-! Field-level reading of `setJob` and `pushLog`. -/

@[simp] theorem setJob_status (now : Nat) (j? : Option Job) (p : Patch) :
    (setJob now j? p).status = (p.status <|> (j?.getD {}).status) := rfl

@[simp] theorem setJob_uuid (now : Nat) (j? : Option Job) (p : Patch) :
    (setJob now j? p).uuid = (p.uuid <|> (j?.getD {}).uuid) := rfl

@[simp] theorem setJob_containerName (now : Nat) (j? : Option Job) (p : Patch) :
    (setJob now j? p).containerName = (p.containerName <|> (j?.getD {}).containerName) := rfl

@[simp] theorem setJob_updatedAt (now : Nat) (j? : Option Job) (p : Patch) :
    (setJob now j? p).updatedAt =
      (p.updatedAt <|> (j?.getD {}).updatedAt <|> some now) := rfl

@[simp] theorem setJob_error (now : Nat) (j? : Option Job) (p : Patch) :
    (setJob now j? p).error = (p.error <|> (j?.getD {}).error) := rfl

@[simp] theorem setJob_exitCode (now : Nat) (j? : Option Job) (p : Patch) :
    (setJob now j? p).exitCode = (p.exitCode <|> (j?.getD {}).exitCode) := rfl

@[simp] theorem setJob_logs (now : Nat) (j? : Option Job) (p : Patch) :
    (setJob now j? p).logs = p.logs.getD (j?.getD {}).logs := rfl

@[simp] theorem pushLog_status (now : Nat) (j : Job) (line : Str) :
    (pushLog now (some j) line).status = j.status := rfl

@[simp] theorem pushLog_uuid (now : Nat) (j : Job) (line : Str) :
    (pushLog now (some j) line).uuid = j.uuid := rfl

@[simp] theorem pushLogS_job_status (now : Nat) (s : SupState) (line : Str) :
    (pushLogS now s line).job.status = s.job.status := rfl

@[simp] theorem pushLogS_clients (now : Nat) (s : SupState) (line : Str) :
    (pushLogS now s line).clients = s.clients := rfl

@[simp] theorem pushLogS_allLines (now : Nat) (s : SupState) (line : Str) :
    (pushLogS now s line).allLines = s.allLines ++ [line] := rfl

/-- C9 — after every `pushLog` the job's log buffer holds at most
`LOG_CAP = 5000` lines; the result is exactly the appended buffer with its
oldest overflow dropped from the front, hence a suffix of the appended
buffer (the most recent lines, in arrival order — FIFO eviction). -/
theorem C9_log_buffer_bounded_fifo (now : Nat) (j? : Option Job) (line : Str) :
    (pushLog now j? line).logs.length ≤ LOG_CAP ∧
    (pushLog now j? line).logs =
      ((j?.getD {}).logs ++ [line]).drop (((j?.getD {}).logs ++ [line]).length - LOG_CAP) ∧
    (pushLog now j? line).logs <:+ ((j?.getD {}).logs ++ [line]) := by
  have hbuf : ∀ (logs : List Str),
      pushLogBuffer logs line =
        (logs ++ [line]).drop ((logs ++ [line]).length - LOG_CAP) := by
    intro logs
    simp only [pushLogBuffer]
    split
    · rfl
    · next h =>
      rw [Nat.sub_eq_zero_of_le (Nat.le_of_not_lt h), List.drop_zero]
  have hlogs : (pushLog now j? line).logs = pushLogBuffer (j?.getD {}).logs line := rfl
  rw [hlogs, hbuf]
  refine ⟨?_, rfl, List.drop_suffix _ _⟩
  rw [List.length_drop]
  omega

/-- C6 — the claim that every `setJob` patch of an existing job refreshes
`updatedAt` fails: the merge is `{ updatedAt: now, ...j, ...patch }`, so
the stored job's own `updatedAt` overrides the fresh default.  Concretely,
a job created at time 1000 and patched at time 2000 still carries
`updatedAt = 1000`. -/
theorem C6_patch_keeps_stale_updatedAt :
    (createJob 1000 (str "https://meet.example") (str "recdir")).updatedAt = some 1000 ∧
    (setJob 2000 (some (createJob 1000 (str "https://meet.example") (str "recdir")))
        { status := some .running }).updatedAt = some 1000 ∧
    (1000 : Nat) ≠ 2000 := by decide

/-! Concrete identifier strings used by counterexamples and witnesses. -/

/-- A well-formed 36-character identifier. -/
def uuidOne : Str := str "11111111-1111-1111-1111-111111111111"

/-- A second, conflicting identifier. -/
def uuidTwo : Str := str "22222222-2222-2222-2222-222222222222"

/-- A third identifier, embedded in a `meetbot-` container name. -/
def uuidThree : Str := str "33333333-3333-3333-3333-333333333333"

/-- A line whose two truncated ANSI fragments reassemble into one SGR
sequence after a single strip pass: `"id"` + `ESC [ ESC [ m m` + `: "<uuid>"`.
One pass removes the inner `ESC [ m`, gluing a fresh `ESC [ m` that hides
the `"id" : "<uuid>"` shape; the uuid only surfaces after a second pass. -/
def nestedAnsiLine : Str :=
  str "\"id\"" ++ [escChar, '[', escChar, '[', 'm', 'm'] ++ str ": \"" ++ uuidOne ++ str "\""

/-- An ordinarily colored line: green `bot UUID: <uuid>`, reset at the end. -/
def coloredLine : Str :=
  [escChar] ++ str "[32mbot UUID: " ++ uuidOne ++ [escChar] ++ str "[0m"

/-- C10 (counterexample) — identifier extraction is NOT invariant under
removal of ANSI SGR sequences: on `nestedAnsiLine` the raw line yields no
identifier, while the line with escape sequences removed (one `stripAnsi`
pass, the code's own removal) yields `uuidOne`.  The culprit is that
`stripAnsi` is not idempotent: deleting a sequence can splice a new one
together. -/
theorem C10_counterexample_ansi :
    extractUuidFrom nestedAnsiLine = none ∧
    extractUuidFrom (stripAnsi nestedAnsiLine) = some uuidOne ∧
    stripAnsi (stripAnsi nestedAnsiLine) ≠ stripAnsi nestedAnsiLine := by decide

/-- C10 (amended) — extraction is invariant under ANSI SGR removal for
every line on which the strip pass is idempotent, i.e. whenever deleting
the escape sequences does not splice new ones together (in particular all
lines with ordinary, well-formed coloring). -/
theorem C10_ansi_invariance (line : Str)
    (h : stripAnsi (stripAnsi line) = stripAnsi line) :
    extractUuidFrom line = extractUuidFrom (stripAnsi line) := by
  simp only [extractUuidFrom]
  rw [h]

/-- C10 (witness) — on a genuinely colored line the amended invariance
applies and the identifier is discovered. -/
theorem C10_ansi_invariance_witness :
    stripAnsi (stripAnsi coloredLine) = stripAnsi coloredLine ∧
    extractUuidFrom coloredLine = extractUuidFrom (stripAnsi coloredLine) ∧
    extractUuidFrom coloredLine = some uuidOne :=
  ⟨by decide, C10_ansi_invariance coloredLine (by decide), by decide⟩

/-! Discovery: first-writer-wins lemmas. -/

theorem processLine_uuid_some (now : Nat) (j : Job) (l : Str) (u : Str)
    (h : j.uuid = some u) : (processLine now j l).uuid = some u := by
  simp only [processLine]
  cases hm : execRegex CONTAINER_NAME_RE l with
  | none => simp [h, hm]
  | some cname =>
    by_cases hc : j.containerName = none <;> simp [h, hm, hc]

theorem processLine_containerName_some (now : Nat) (j : Job) (l : Str) (c : Str)
    (h : j.containerName = some c) : (processLine now j l).containerName = some c := by
  simp only [processLine]
  cases hm : execRegex CONTAINER_NAME_RE l with
  | none =>
    cases he : extractUuidFrom l <;> cases hu : j.uuid <;> simp [h, hm, he, hu]
  | some cname =>
    cases he : extractUuidFrom l <;> cases hu : j.uuid <;> simp [h, hm, he, hu]

theorem foldl_processLine_uuid_some (now : Nat) (lines : List Str) :
    ∀ (j : Job) (u : Str), j.uuid = some u →
      (lines.foldl (processLine now) j).uuid = some u := by
  induction lines with
  | nil => intro j u h; simpa using h
  | cons l ls ih =>
    intro j u h
    exact ih _ u (processLine_uuid_some now j l u h)

theorem foldl_processLine_containerName_some (now : Nat) (lines : List Str) :
    ∀ (j : Job) (c : Str), j.containerName = some c →
      (lines.foldl (processLine now) j).containerName = some c := by
  induction lines with
  | nil => intro j c h; simpa using h
  | cons l ls ih =>
    intro j c h
    exact ih _ c (processLine_containerName_some now j l c h)

/-- The evidence lines for the conflicting-identifier scenario: the first
line carries `uuidOne` and also a `meetbot-`-named container embedding
`uuidThree`; the second line carries the conflicting `uuidTwo`. -/
def firstWLine1 : Str :=
  str "bot UUID: " ++ uuidOne ++ str " CONTAINER_NAME: meetbot-" ++ uuidThree

/-- The second, conflicting identifier-matching line of the scenario. -/
def firstWLine2 : Str := str "session ID: " ++ uuidTwo

/-- A freshly started job (no identifier discovered yet). -/
def firstWJob : Job := (startJob 0 (createJob 0 (str "https://meet.example") (str "recdir"))).job

/-- C5 (counterexample) — with an identifier-matching first line followed
by a different, conflicting identifier-matching line, the final identifier
is NOT the first match: the per-line snapshot `jcur` is taken before the
line's own uuid write, so a `meetbot-<uuid>` container name on the same
first line overwrites the just-recorded `uuidOne` with `uuidThree`. -/
theorem C5_counterexample_first_writer :
    extractUuidFrom firstWLine1 = some uuidOne ∧
    extractUuidFrom firstWLine2 = some uuidTwo ∧
    uuidOne ≠ uuidTwo ∧
    firstWJob.uuid = none ∧
    ([firstWLine1, firstWLine2].foldl (processLine 0) firstWJob).uuid = some uuidThree ∧
    uuidThree ≠ uuidOne := by decide

/-- C5 (amended) — discovery is first-writer-wins across lines: an already
recorded `uuid` (resp. `containerName`) is never changed by any later
line; and the final identifier equals the first match whenever the first
matching line does not itself also match the container-name rule (whose
`meetbot-`-derived identifier can override, within that same line, the
uuid just extracted — the first-writer guard reads a snapshot taken before
the line's own writes). -/
theorem C5_first_writer_wins :
    (∀ (now : Nat) (j : Job) (lines : List Str) (u : Str), j.uuid = some u →
      (lines.foldl (processLine now) j).uuid = some u) ∧
    (∀ (now : Nat) (j : Job) (lines : List Str) (c : Str), j.containerName = some c →
      (lines.foldl (processLine now) j).containerName = some c) ∧
    (∀ (now : Nat) (j : Job) (l1 : Str) (rest : List Str) (u1 : Str), j.uuid = none →
      extractUuidFrom l1 = some u1 →
      execRegex CONTAINER_NAME_RE l1 = none →
      ((l1 :: rest).foldl (processLine now) j).uuid = some u1) := by
  refine ⟨fun now j lines u h => foldl_processLine_uuid_some now lines j u h,
    fun now j lines c h => foldl_processLine_containerName_some now lines j c h, ?_⟩
  intro now j l1 rest u1 hnone hex hcn
  have h1 : (processLine now j l1).uuid = some u1 := by
    simp [processLine, hnone, hex, hcn]
  simpa using foldl_processLine_uuid_some now rest (processLine now j l1) u1 h1

/-- The started job with a container name already recorded. -/
def firstWJobNamed : Job := { firstWJob with containerName := some (str "meetbot-x") }

/-- C5 (witness) — the amended first-writer-wins theorem applied to
concrete data: a recorded identifier survives a later conflicting line,
a recorded container name survives later lines, and a clean first match
(no container-name interference) is the final identifier. -/
theorem C5_first_writer_wins_witness :
    ((firstWJob.uuid = none ∧ extractUuidFrom firstWLine2 = some uuidTwo ∧
      execRegex CONTAINER_NAME_RE firstWLine2 = none) ∧
     ([firstWLine2, firstWLine1].foldl (processLine 0) firstWJob).uuid = some uuidTwo) ∧
    (firstWJobNamed.containerName = some (str "meetbot-x") ∧
     ([firstWLine1].foldl (processLine 0) firstWJobNamed).containerName
        = some (str "meetbot-x")) :=
  ⟨⟨⟨by decide, by decide, by decide⟩,
    C5_first_writer_wins.2.2 0 firstWJob firstWLine2 [firstWLine1] uuidTwo
      (by decide) (by decide) (by decide)⟩,
   ⟨rfl,
    C5_first_writer_wins.2.1 0 firstWJobNamed [firstWLine1] (str "meetbot-x") rfl⟩⟩

/-! The fallback recordings scan. -/

theorem findLatest_mem_max (dir : List DirEntry) (since : Nat) (n : Str)
    (hpos : 0 < since)
    (h : findLatestUuidFromRecordingsSince dir since = some n) :
    ∃ t, (n, t) ∈ dir ∧ isUuidDirName n = true ∧ since - 5000 ≤ t ∧
      ∀ e ∈ dir, isUuidDirName e.1 = true → since - 5000 ≤ e.2 → e.2 ≤ t := by
  classical
  simp only [findLatestUuidFromRecordingsSince] at h
  set q1 : DirEntry → Bool := fun e => isUuidDirName e.1 with hq1
  set q2 : DirEntry → Bool := fun it => since = 0 || since - 5000 ≤ it.2 with hq2
  set le : DirEntry → DirEntry → Bool := fun a b => b.2 ≤ a.2 with hle
  set L := (dir.filter q1).filter q2 with hL
  have hperm : ((dir.filter q1).filter q2).mergeSort le |>.Perm L :=
    List.mergeSort_perm _ le
  have hsort : List.Pairwise (fun a b => le a b = true)
      (((dir.filter q1).filter q2).mergeSort le) :=
    List.sorted_mergeSort
      (by intro a b c h1 h2; simp only [hle, decide_eq_true_eq] at h1 h2 ⊢; omega)
      (by intro a b; simp only [hle, Bool.or_eq_true, decide_eq_true_eq]
          exact Nat.le_total b.2 a.2)
      ((dir.filter q1).filter q2)
  cases hms : ((dir.filter q1).filter q2).mergeSort le with
  | nil => rw [hms] at h; simp at h
  | cons hd tl =>
    rw [hms] at h hperm hsort
    simp only [List.head?_cons, Option.map_some] at h
    obtain rfl : hd.1 = n := by simpa using h
    refine ⟨hd.2, ?_, ?_, ?_, ?_⟩
    · have : hd ∈ L := hperm.subset (List.mem_cons_self hd tl)
      exact List.mem_of_mem_filter (List.mem_of_mem_filter this)
    · have : hd ∈ L := hperm.subset (List.mem_cons_self hd tl)
      have := List.of_mem_filter (List.mem_of_mem_filter this)
      simpa [hq1] using this
    · have : hd ∈ L := hperm.subset (List.mem_cons_self hd tl)
      have h2 := List.of_mem_filter this
      simp only [hq2, Bool.or_eq_true, decide_eq_true_eq] at h2
      rcases h2 with h2 | h2
      · omega
      · exact h2
    · intro e he hq hsince
      have heL : e ∈ L := by
        refine List.mem_filter.mpr ⟨List.mem_filter.mpr ⟨he, ?_⟩, ?_⟩
        · simpa [hq1] using hq
        · simp only [hq2, Bool.or_eq_true, decide_eq_true_eq]
          exact Or.inr hsince
      have : e ∈ hd :: tl := hperm.mem_iff.mpr heL
      rcases List.mem_cons.mp this with rfl | htl
      · exact Nat.le_refl _
      · have := (List.pairwise_cons.mp hsort).1 e htl
        simpa [hle, decide_eq_true_eq] using this

theorem findLatest_none (dir : List DirEntry) (since : Nat)
    (hpos : 0 < since)
    (h : ∀ e ∈ dir, ¬ (isUuidDirName e.1 = true ∧ since - 5000 ≤ e.2)) :
    findLatestUuidFromRecordingsSince dir since = none := by
  simp only [findLatestUuidFromRecordingsSince]
  have hnil : ((dir.filter fun e => isUuidDirName e.1).filter
      fun it => since = 0 || since - 5000 ≤ it.2) = [] := by
    rw [List.filter_eq_nil_iff]
    intro e he
    have he1 := List.mem_of_mem_filter he
    have hq1 := List.of_mem_filter he
    simp only [Bool.or_eq_true, decide_eq_true_eq]
    intro hor
    rcases hor with h0 | hle
    · omega
    · exact (h e he1) ⟨hq1, hle⟩
  rw [hnil]
  have := (List.mergeSort_perm ([] : List DirEntry) fun a b => b.2 ≤ a.2).eq_nil
  rw [this]
  rfl

/-- C8 — the fallback scan at clean exit: (i) when the scan yields a name,
that name is a directory entry of identifier shape whose mtime is at or
after `since − 5000` and is maximal among all such entries; (ii) when no
entry qualifies, the scan yields nothing; (iii) in the close handler, on
clean exit (`code 0`, no signal) with no identifier captured from output,
the job's identifier becomes exactly the scan's result over
`startedAt || createdAt` — in particular it remains unset when the scan
found nothing.  (The ~500ms grace sleep has no content in this discrete
model.) -/
theorem C8_fallback_scan :
    (∀ (dir : List DirEntry) (since : Nat) (n : Str), 0 < since →
      findLatestUuidFromRecordingsSince dir since = some n →
      ∃ t, (n, t) ∈ dir ∧ isUuidDirName n = true ∧ since - 5000 ≤ t ∧
        ∀ e ∈ dir, isUuidDirName e.1 = true → since - 5000 ≤ e.2 → e.2 ≤ t) ∧
    (∀ (dir : List DirEntry) (since : Nat), 0 < since →
      (∀ e ∈ dir, ¬ (isUuidDirName e.1 = true ∧ since - 5000 ≤ e.2)) →
      findLatestUuidFromRecordingsSince dir since = none) ∧
    (∀ (cfg : Config) (now : Nat) (dir : List DirEntry) (j0 : Job), j0.uuid = none →
      (closeJob cfg now (some 0) none dir j0).1.uuid =
        findLatestUuidFromRecordingsSince dir (jsOrNat j0.startedAt j0.createdAt)) := by
  refine ⟨findLatest_mem_max, findLatest_none, ?_⟩
  intro cfg now dir j0 h0
  simp only [closeJob, h0]
  cases hscan : findLatestUuidFromRecordingsSince dir (jsOrNat j0.startedAt j0.createdAt) with
  | none => simp [h0, hscan]
  | some fb => simp [h0, hscan]

/-- A concrete recordings listing: two identifier-shaped entries and one
odd name. -/
def demoDir : List DirEntry :=
  [(uuidOne, 10000), (uuidTwo, 20000), (str "not-a-uuid", 30000)]

/-- A concrete configuration with no control-plane base. -/
def demoCfg : Config :=
  { idleMs := 120000, maxMs := 7200000, meetBotBase := none,
    allowDockerStop := true, defaultRecordingsDir := str "recdir" }

/-- C8 (witness) — the scan theorem applied to concrete listings: over
`demoDir` with `since = 12000` the scan picks `uuidTwo` (the freshest
qualifying entry); over a listing with no identifier-shaped names the scan
yields nothing; and the close handler records exactly the scan's result. -/
theorem C8_fallback_scan_witness :
    (findLatestUuidFromRecordingsSince demoDir 12000 = some uuidTwo ∧
     ∃ t, (uuidTwo, t) ∈ demoDir ∧ isUuidDirName uuidTwo = true ∧ 12000 - 5000 ≤ t ∧
       ∀ e ∈ demoDir, isUuidDirName e.1 = true → 12000 - 5000 ≤ e.2 → e.2 ≤ t) ∧
    findLatestUuidFromRecordingsSince [(str "nope", 50)] 9000 = none ∧
    (closeJob demoCfg 30 (some 0) none demoDir firstWJob).1.uuid =
      findLatestUuidFromRecordingsSince demoDir
        (jsOrNat firstWJob.startedAt firstWJob.createdAt) :=
  ⟨⟨by decide, C8_fallback_scan.1 demoDir 12000 uuidTwo (by decide) (by decide)⟩,
   C8_fallback_scan.2.1 [(str "nope", 50)] 9000 (by decide) (by decide),
   C8_fallback_scan.2.2 demoCfg 30 demoDir firstWJob (by decide)⟩

/-- The identifier available at reconciliation: the one captured from
output, or failing that the fallback scan over the recordings listing
since `startedAt || createdAt`. -/
def resolvedUuid (dir : List DirEntry) (j0 : Job) : Option Str :=
  j0.uuid <|> findLatestUuidFromRecordingsSince dir (jsOrNat j0.startedAt j0.createdAt)

/-- C2 — the close reconciliation table, first match wins: clean exit with
an identifier (captured or scanned) is `done` with exit code 0 and that
identifier; clean exit with no identifier even after the scan is `error`
`completed_without_uuid`; a termination signal is `error` `killed_by_<sig>`;
a non-zero exit is `error` `bot_failed` with the exit code attached. -/
theorem C2_exit_reconciliation (cfg : Config) (now : Nat) (codeEff : Option Int)
    (sigEff : Option Str) (dir : List DirEntry) (j0 : Job) :
    (codeEff = some 0 → sigEff = none → (resolvedUuid dir j0).isSome →
      (closeJob cfg now codeEff sigEff dir j0).1.status = some .done ∧
      (closeJob cfg now codeEff sigEff dir j0).1.exitCode = some 0 ∧
      (closeJob cfg now codeEff sigEff dir j0).1.uuid = resolvedUuid dir j0) ∧
    (codeEff = some 0 → sigEff = none → resolvedUuid dir j0 = none →
      (closeJob cfg now codeEff sigEff dir j0).1.status = some .error ∧
      (closeJob cfg now codeEff sigEff dir j0).1.error =
        some (str "completed_without_uuid")) ∧
    (∀ sg, sigEff = some sg →
      (closeJob cfg now codeEff sigEff dir j0).1.status = some .error ∧
      (closeJob cfg now codeEff sigEff dir j0).1.error =
        some (str "killed_by_" ++ sg)) ∧
    (∀ c, codeEff = some c → c ≠ 0 → sigEff = none →
      (closeJob cfg now codeEff sigEff dir j0).1.status = some .error ∧
      (closeJob cfg now codeEff sigEff dir j0).1.error = some (str "bot_failed") ∧
      (closeJob cfg now codeEff sigEff dir j0).1.exitCode = some c) := by
  refine ⟨?_, ?_, ?_, ?_⟩
  · intro hc hs hres
    subst hc; subst hs
    cases hu : j0.uuid with
    | some u => simp [closeJob, resolvedUuid, hu]
    | none =>
      cases hscan : findLatestUuidFromRecordingsSince dir
          (jsOrNat j0.startedAt j0.createdAt) with
      | some fb => simp [closeJob, resolvedUuid, hu, hscan]
      | none => simp [resolvedUuid, hu, hscan] at hres
  · intro hc hs hres
    subst hc; subst hs
    cases hu : j0.uuid with
    | some u => simp [resolvedUuid, hu] at hres
    | none =>
      cases hscan : findLatestUuidFromRecordingsSince dir
          (jsOrNat j0.startedAt j0.createdAt) with
      | some fb => simp [resolvedUuid, hu, hscan] at hres
      | none => simp [closeJob, hu, hscan]
  · intro sg hs
    subst hs
    simp [closeJob]
  · intro c hc hc0 hs
    subst hc; subst hs
    have hbeq : ((some c : Option Int) == some 0) = false := by
      simp [hc0]
    simp [closeJob, hbeq]

/-! The stop cascade, compared against the spec's ordered-strategy
reading. -/

/-- Spec-side reading of §4.5: the ordered strategy table, each entry
`(applicable?, succeeds?, via)`.  Strategy 5 (local kill) responds success
whenever a child handle exists. -/
def stopStrategySpec (cfg : Config) (childExists : Bool) (o : StopOracles)
    (j : Job) : List (Bool × Bool × StopVia) :=
  let payload := j.uuid.isSome || j.meeting_url.isSome
  [ (cfg.meetBotBase.isSome && payload, o.baseHttpOk, .httpBase),
    (j.containerName.isSome && payload, o.dockerExecOk, .dockerExec),
    (j.containerName.isSome && payload, o.containerHttpOk, .httpContainer),
    (cfg.allowDockerStop && j.containerName.isSome, o.dockerStopOk, .dockerStopName),
    (childExists, true, .localKill) ]

/-- Spec-side: the first applicable strategy that succeeds, in order. -/
def firstSuccess : List (Bool × Bool × StopVia) → Option StopVia
  | [] => none
  | (app, ok, v) :: rest => if app && ok then some v else firstSuccess rest

/-- Spec-side: the strategies whose bodies run — every applicable one up
to and including the first success. -/
def attemptedOf : List (Bool × Bool × StopVia) → List StopVia
  | [] => []
  | (app, ok, v) :: rest =>
    if app then (if ok then [v] else v :: attemptedOf rest) else attemptedOf rest

theorem firstSuccess_none_iff (l : List (Bool × Bool × StopVia)) :
    firstSuccess l = none ↔ ∀ t ∈ l, t.1 = true → t.2.1 = false := by
  induction l with
  | nil => simp [firstSuccess]
  | cons hd tl ih =>
    obtain ⟨app, ok, v⟩ := hd
    by_cases happ : app = true
    · by_cases hok : ok = true
      · simp [firstSuccess, happ, hok]
      · simp only [firstSuccess, happ, Bool.true_and]
        simp only [Bool.not_eq_true] at hok
        simp [hok, ih]
    · simp only [Bool.not_eq_true] at happ
      simp [firstSuccess, happ, ih]

theorem stopCascade_outcome_eq (cfg : Config) (now : Nat) (ce : Bool)
    (o : StopOracles) (j : Job) :
    (stopCascade cfg now ce o j).outcome =
      firstSuccess (stopStrategySpec cfg ce o j) := by
  simp only [stopCascade, stopStrategySpec, firstSuccess]
  split_ifs <;> simp_all

theorem stopCascade_attempted_eq (cfg : Config) (now : Nat) (ce : Bool)
    (o : StopOracles) (j : Job) :
    (stopCascade cfg now ce o j).attempted =
      attemptedOf (stopStrategySpec cfg ce o j) := by
  rcases o with ⟨ob, oe, oc, od, ot⟩
  simp only [stopCascade, stopStrategySpec, attemptedOf]
  generalize (cfg.meetBotBase.isSome && (j.uuid.isSome || j.meeting_url.isSome)) = g1
  generalize (j.containerName.isSome && (j.uuid.isSome || j.meeting_url.isSome)) = g2
  generalize (cfg.allowDockerStop && j.containerName.isSome) = g4
  simp only [apply_ite StopResult.attempted]
  revert g1 g2 g4 ob oe oc od ce
  decide

theorem stopCascade_job_cases (cfg : Config) (now : Nat) (ce : Bool)
    (o : StopOracles) (j : Job) :
    ((stopCascade cfg now ce o j).outcome.isSome = true ∧
      (stopCascade cfg now ce o j).job =
        setJob now (some j) { status := some .stopping }) ∨
    ((stopCascade cfg now ce o j).outcome = none ∧
      (stopCascade cfg now ce o j).job = j) := by
  simp only [stopCascade]
  split_ifs <;> simp

/-- C3 — the stop cascade is the ordered first-success protocol: the
response's strategy is the first applicable-and-successful entry of the
§4.5 table and the strategies run are exactly the applicable ones up to
and including it (so nothing after the first success is attempted); a
success patches `status: "stopping"` while a failure leaves the job
untouched; with a configured control-plane base, a job payload and a
reachable base, strategy 1 answers and strategies 2–5 never run; and the
502 `stop_unavailable` answer happens exactly when every applicable
strategy fails. -/
theorem C3_stop_cascade (cfg : Config) (now : Nat) (ce : Bool)
    (o : StopOracles) (j : Job) :
    ((stopCascade cfg now ce o j).outcome =
      firstSuccess (stopStrategySpec cfg ce o j)) ∧
    ((stopCascade cfg now ce o j).attempted =
      attemptedOf (stopStrategySpec cfg ce o j)) ∧
    ((stopCascade cfg now ce o j).outcome.isSome = true →
      (stopCascade cfg now ce o j).job.status = some .stopping) ∧
    ((stopCascade cfg now ce o j).outcome = none →
      (stopCascade cfg now ce o j).job = j) ∧
    (cfg.meetBotBase.isSome = true → j.meeting_url.isSome = true →
      o.baseHttpOk = true →
      (stopCascade cfg now ce o j).outcome = some .httpBase ∧
      (stopCascade cfg now ce o j).attempted = [.httpBase]) ∧
    ((stopCascade cfg now ce o j).outcome = none ↔
      ∀ t ∈ stopStrategySpec cfg ce o j, t.1 = true → t.2.1 = false) := by
  refine ⟨stopCascade_outcome_eq cfg now ce o j,
    stopCascade_attempted_eq cfg now ce o j, ?_, ?_, ?_, ?_⟩
  · intro hs
    rcases stopCascade_job_cases cfg now ce o j with ⟨_, hj⟩ | ⟨hn, _⟩
    · simp [hj]
    · rw [hn] at hs; simp at hs
  · intro hn
    rcases stopCascade_job_cases cfg now ce o j with ⟨hs, _⟩ | ⟨_, hj⟩
    · rw [hn] at hs; simp at hs
    · exact hj
  · intro hmb hml hok
    have hg1 : (cfg.meetBotBase.isSome &&
        (j.uuid.isSome || j.meeting_url.isSome)) = true := by
      simp [hmb, hml]
    constructor
    · rw [stopCascade_outcome_eq]
      simp [stopStrategySpec, firstSuccess, hg1, hok]
    · rw [stopCascade_attempted_eq]
      simp [stopStrategySpec, attemptedOf, hg1, hok]
  · rw [stopCascade_outcome_eq]
    exact firstSuccess_none_iff _

/-- C2 (witness) — the reconciliation table evaluated at one concrete
input per row: fallback-resolved clean exit, clean exit with nothing to
resolve, SIGKILL termination, and exit code 1. -/
theorem C2_exit_reconciliation_witness :
    ((closeJob demoCfg 30 (some 0) none demoDir firstWJob).1.status = some .done ∧
     (closeJob demoCfg 30 (some 0) none demoDir firstWJob).1.exitCode = some 0 ∧
     (closeJob demoCfg 30 (some 0) none demoDir firstWJob).1.uuid =
       resolvedUuid demoDir firstWJob) ∧
    ((closeJob demoCfg 31 (some 0) none [] firstWJob).1.status = some .error ∧
     (closeJob demoCfg 31 (some 0) none [] firstWJob).1.error =
       some (str "completed_without_uuid")) ∧
    ((closeJob demoCfg 32 none (some (str "SIGKILL")) [] firstWJob).1.status =
       some .error ∧
     (closeJob demoCfg 32 none (some (str "SIGKILL")) [] firstWJob).1.error =
       some (str "killed_by_" ++ str "SIGKILL")) ∧
    ((closeJob demoCfg 33 (some 1) none [] firstWJob).1.status = some .error ∧
     (closeJob demoCfg 33 (some 1) none [] firstWJob).1.error =
       some (str "bot_failed") ∧
     (closeJob demoCfg 33 (some 1) none [] firstWJob).1.exitCode = some 1) :=
  ⟨(C2_exit_reconciliation demoCfg 30 (some 0) none demoDir firstWJob).1
      rfl rfl (by decide),
   (C2_exit_reconciliation demoCfg 31 (some 0) none [] firstWJob).2.1
      rfl rfl (by decide),
   (C2_exit_reconciliation demoCfg 32 none (some (str "SIGKILL")) [] firstWJob).2.2.1
      (str "SIGKILL") rfl,
   (C2_exit_reconciliation demoCfg 33 (some 1) none [] firstWJob).2.2.2
      1 rfl (by decide) rfl⟩

/-- All external stop channels respond. -/
def allOk : StopOracles := ⟨true, true, true, true, true⟩

/-- The demo configuration with a configured control-plane base. -/
def baseCfg : Config := { demoCfg with meetBotBase := some (str "http://base") }

/-- C3 (witness) — the cascade theorem at concrete inputs: with a
configured, reachable base the answer is strategy 1 alone and the job is
`stopping`; with no base, no container and no child the request is
`stop_unavailable` and the job is untouched. -/
theorem C3_stop_cascade_witness :
    ((stopCascade baseCfg 50 false allOk firstWJob).outcome = some .httpBase ∧
     (stopCascade baseCfg 50 false allOk firstWJob).attempted = [.httpBase]) ∧
    (stopCascade baseCfg 50 false allOk firstWJob).job.status = some .stopping ∧
    (stopCascade demoCfg 50 false allOk firstWJob).outcome = none ∧
    (stopCascade demoCfg 50 false allOk firstWJob).job = firstWJob := by
  have hmain := C3_stop_cascade baseCfg 50 false allOk firstWJob
  have hmain2 := C3_stop_cascade demoCfg 50 false allOk firstWJob
  refine ⟨hmain.2.2.2.2.1 (by decide) (by decide) (by decide), ?_, ?_, ?_⟩
  · exact hmain.2.2.1 (by decide)
  · exact hmain2.2.2.2.2.2.mpr (by decide)
  · exact hmain2.2.2.2.1 (hmain2.2.2.2.2.2.mpr (by decide))

/-! Watchdog timing. -/

/-- A projection that every fold of a projection-preserving function
keeps. -/
theorem foldl_pres {σ α β : Type _} (proj : σ → β) (f : σ → α → σ)
    (h : ∀ s a, proj (f s a) = proj s) :
    ∀ (l : List α) (s : σ), proj (l.foldl f s) = proj s := by
  intro l
  induction l with
  | nil => intro s; rfl
  | cons a as ih =>
    intro s
    rw [List.foldl_cons, ih, h]

/-- The trace hypothesis for the idle watchdog: at every guard firing the
time since the last output activity is within the idle limit (the job's
output gaps, observed at the checks, stay below the limit). -/
def noIdleExpiryB (cfg : Config) : SupState → List Event → Bool
  | _, [] => true
  | s, e :: rest =>
    (match e with
     | .tick now => now - s.lastActivity ≤ cfg.idleMs
     | _ => true) && noIdleExpiryB cfg (step cfg s e) rest

theorem step_killedIdle (cfg : Config) (s : SupState) (e : Event)
    (h : ∀ now, e = .tick now → now - s.lastActivity ≤ cfg.idleMs) :
    (step cfg s e).killedIdle = s.killedIdle := by
  cases e with
  | tick now =>
    have hle := h now rfl
    have hni : ¬ (now - s.lastActivity > cfg.idleMs) := by omega
    simp only [step, tickStep]
    cases hg : s.guardActive with
    | false => simp
    | true =>
      simp only [Bool.not_true, Bool.false_eq_true, if_false]
      split
      · rfl
      · simp [hni]
  | data now src chunk =>
    simp only [step]
    rw [foldl_pres SupState.killedIdle
      (fun acc l => pushLogS now acc (src ++ [' '] ++ l)) (fun s a => rfl)]
  | childErr now msg => rfl
  | exited code sig => rfl
  | closed now code sig dir =>
    simp only [step]
    cases closeJob cfg now (s.exitCodeFinal <|> code) (s.exitSignalFinal <|> sig) dir
        ({ s with guardActive := false, childInMap := false }).job with
    | mk j' line => rfl
  | stopReq now o => rfl
  | subscribe cid => rfl

theorem run_killedIdle (cfg : Config) :
    ∀ (evs : List Event) (s : SupState), noIdleExpiryB cfg s evs = true →
      (run cfg s evs).killedIdle = s.killedIdle := by
  intro evs
  induction evs with
  | nil => intro s _; rfl
  | cons e rest ih =>
    intro s h
    simp only [noIdleExpiryB, Bool.and_eq_true] at h
    have hstep : (step cfg s e).killedIdle = s.killedIdle := by
      apply step_killedIdle
      intro now he
      subst he
      simpa using h.1
    have hrest := ih (step cfg s e) h.2
    show (run cfg (step cfg s e) rest).killedIdle = s.killedIdle
    rw [hrest, hstep]

theorem tickStep_idle_fires (cfg : Config) (now : Nat) (s : SupState)
    (hg : s.guardActive = true)
    (hmax : now - s.startedAtLoc ≤ cfg.maxMs)
    (hidle : now - s.lastActivity > cfg.idleMs) :
    (tickStep cfg now s).job.status = some .timeout ∧
    (tickStep cfg now s).job.error = some (str "idle_timeout") ∧
    (tickStep cfg now s).killedIdle = true ∧
    (tickStep cfg now s).guardActive = false := by
  have h1 : ¬ (now - s.startedAtLoc > cfg.maxMs) := by omega
  simp [tickStep, hg, h1, hidle, pushLogS, pushLog]

theorem tickStep_max_fires (cfg : Config) (now : Nat) (s : SupState)
    (hg : s.guardActive = true)
    (hmax : now - s.startedAtLoc > cfg.maxMs) :
    (tickStep cfg now s).job.status = some .timeout ∧
    (tickStep cfg now s).job.error = some (str "max_time_exceeded") ∧
    (tickStep cfg now s).killedMax = true ∧
    (tickStep cfg now s).guardActive = false := by
  simp [tickStep, hg, hmax, pushLogS, pushLog]

/-- C4 — the per-job watchdogs: a supervision run in which every guard
firing sees the time since the last output chunk within the idle limit is
never idle-killed; a guard firing that sees the job silent beyond the idle
limit (and not yet past the absolute limit) force-kills it with status
`timeout`, reason `idle_timeout`; a guard firing past the absolute limit
force-kills it with status `timeout`, reason `max_time_exceeded`,
regardless of output activity. -/
theorem C4_watchdogs (cfg : Config) :
    (∀ (s : SupState) (evs : List Event), noIdleExpiryB cfg s evs = true →
      (run cfg s evs).killedIdle = s.killedIdle) ∧
    (∀ (now : Nat) (s : SupState), s.guardActive = true →
      now - s.startedAtLoc ≤ cfg.maxMs → now - s.lastActivity > cfg.idleMs →
      (tickStep cfg now s).job.status = some .timeout ∧
      (tickStep cfg now s).job.error = some (str "idle_timeout") ∧
      (tickStep cfg now s).killedIdle = true ∧
      (tickStep cfg now s).guardActive = false) ∧
    (∀ (now : Nat) (s : SupState), s.guardActive = true →
      now - s.startedAtLoc > cfg.maxMs →
      (tickStep cfg now s).job.status = some .timeout ∧
      (tickStep cfg now s).job.error = some (str "max_time_exceeded") ∧
      (tickStep cfg now s).killedMax = true ∧
      (tickStep cfg now s).guardActive = false) :=
  ⟨fun s evs h => run_killedIdle cfg evs s h,
   fun now s hg hmax hidle => tickStep_idle_fires cfg now s hg hmax hidle,
   fun now s hg hmax => tickStep_max_fires cfg now s hg hmax⟩

/-- A started supervision state at time 0. -/
def demoSup : SupState := startJob 0 (createJob 0 (str "https://meet.example") (str "recdir"))

/-- A chatty trace: output every minute, guard checks shortly after. -/
def chattyTrace : List Event :=
  [.data 60000 (str "[bot:stdout]") (str "working"),
   .tick 65000,
   .data 120000 (str "[bot:stdout]") (str "working"),
   .tick 125000,
   .data 180000 (str "[bot:stdout]") (str "working"),
   .tick 185000]

/-- C4 (witness) — under a 2-minute idle limit: a job writing every
minute is never idle-killed over `chattyTrace`; a silent job is
idle-killed at the 130s check; a job past the 2-hour absolute limit is
max-killed even right after producing output. -/
theorem C4_watchdogs_witness :
    (noIdleExpiryB demoCfg demoSup chattyTrace = true ∧
     (run demoCfg demoSup chattyTrace).killedIdle = demoSup.killedIdle ∧
     demoSup.killedIdle = false) ∧
    ((tickStep demoCfg 130000 demoSup).job.status = some .timeout ∧
     (tickStep demoCfg 130000 demoSup).job.error = some (str "idle_timeout") ∧
     (tickStep demoCfg 130000 demoSup).killedIdle = true ∧
     (tickStep demoCfg 130000 demoSup).guardActive = false) ∧
    ((tickStep demoCfg 7300000 { demoSup with lastActivity := 7299000 }).job.status
        = some .timeout ∧
     (tickStep demoCfg 7300000 { demoSup with lastActivity := 7299000 }).job.error
        = some (str "max_time_exceeded") ∧
     (tickStep demoCfg 7300000 { demoSup with lastActivity := 7299000 }).killedMax = true ∧
     (tickStep demoCfg 7300000 { demoSup with lastActivity := 7299000 }).guardActive
        = false) :=
  ⟨⟨by decide, (C4_watchdogs demoCfg).1 demoSup chattyTrace (by decide), by decide⟩,
   (C4_watchdogs demoCfg).2.1 130000 demoSup (by decide) (by decide) (by decide),
   (C4_watchdogs demoCfg).2.2 7300000 { demoSup with lastActivity := 7299000 }
     (by decide) (by decide)⟩

/-! The status state machine. -/

/-- The §4.5 state machine transitions:
`pending → running`, `running → done | error | timeout | stopping`,
`stopping → done | error`; no transition leaves `done`, `error`, `timeout`. -/
def specTransitionB : Status → Status → Bool
  | .pending, .running => true
  | .running, .done => true
  | .running, .error => true
  | .running, .timeout => true
  | .running, .stopping => true
  | .stopping, .done => true
  | .stopping, .error => true
  | _, _ => false

theorem processLine_status (now : Nat) (j : Job) (l : Str) :
    (processLine now j l).status = j.status := by
  simp only [processLine]
  cases hm : execRegex CONTAINER_NAME_RE l with
  | none => cases he : extractUuidFrom l <;> cases hu : j.uuid <;> simp [he, hu]
  | some cname =>
    cases he : extractUuidFrom l <;> cases hu : j.uuid <;>
      by_cases hc : j.containerName = none <;>
      simp [he, hu, hc] <;> split <;> simp

theorem closeJob_status_terminal (cfg : Config) (now : Nat) (codeEff : Option Int)
    (sigEff : Option Str) (dir : List DirEntry) (j0 : Job) :
    (closeJob cfg now codeEff sigEff dir j0).1.status = some .done ∨
    (closeJob cfg now codeEff sigEff dir j0).1.status = some .error := by
  simp only [closeJob]
  split <;> split <;> simp

/-- A run that reaches the terminal status `done`: spawn, one output line
carrying the identifier, then a clean close. -/
def doneSup : SupState :=
  run baseCfg (startJob 5 (createJob 5 (str "https://meet.example") (str "recdir")))
    [.data 6 (str "[bot:stdout]") (str "session ID: " ++ uuidOne),
     .closed 10 (some 0) none []]

/-- C1 (counterexample) — the terminal state `done` is NOT absorbing: a
stop request on a finished job still runs the cascade (the handler never
inspects `status`), and with a configured control-plane base strategy 1
succeeds and patches the job back to `stopping` — a `done → stopping`
transition outside the §4.5 machine (which admits `stopping` only from
`running`). -/
theorem C1_counterexample_terminal_not_absorbing :
    doneSup.job.status = some .done ∧
    (step baseCfg doneSup (.stopReq 20 allOk)).job.status = some .stopping ∧
    specTransitionB .done .stopping = false := by decide

/-- C1 (amended) — the status only changes through these event-shaped
transitions: creation yields `pending`, the post-spawn patch yields
`running`, a guard firing (while the interval is active) yields `timeout`,
close reconciliation yields `done` or `error`, a successful stop strategy
yields `stopping`, and the child error event yields `error`.  Close, stop
and the watchdog apply from ANY current status, so the terminal statuses
`done`, `error`, `timeout` are not absorbing and `stopping` is not only
reachable from `running`. -/
theorem C1_status_machine (cfg : Config) :
    (∀ (now : Nat) (u r : Str), (createJob now u r).status = some .pending) ∧
    (∀ (now : Nat) (j : Job), (startJob now j).job.status = some .running) ∧
    (∀ (s : SupState) (e : Event),
      (step cfg s e).job.status = s.job.status ∨
      (∃ now, e = .tick now ∧ s.guardActive = true ∧
        (step cfg s e).job.status = some .timeout) ∨
      (∃ now code sig dir, e = .closed now code sig dir ∧
        ((step cfg s e).job.status = some .done ∨
         (step cfg s e).job.status = some .error)) ∨
      (∃ now o, e = .stopReq now o ∧ (step cfg s e).job.status = some .stopping) ∨
      (∃ now msg, e = .childErr now msg ∧ (step cfg s e).job.status = some .error)) := by
  refine ⟨fun now u r => rfl, fun now j => rfl, ?_⟩
  intro s e
  cases e with
  | tick now =>
    simp only [step, tickStep]
    cases hg : s.guardActive with
    | false => left; simp
    | true =>
      simp only [Bool.not_true, Bool.false_eq_true, if_false]
      split
      · right; left
        exact ⟨now, rfl, by trivial, by simp [pushLogS, pushLog]⟩
      · split
        · right; left
          exact ⟨now, rfl, by trivial, by simp [pushLogS, pushLog]⟩
        · left; rfl
  | data now src chunk =>
    left
    simp only [step]
    rw [foldl_pres (fun j => Job.status j) (processLine now) (processLine_status now)]
    rw [foldl_pres (fun s => s.job.status)
      (fun acc l => pushLogS now acc (src ++ [' '] ++ l)) (fun s a => rfl)]
  | childErr now msg =>
    right; right; right; right
    exact ⟨now, msg, rfl, by simp [step, pushLogS, pushLog]⟩
  | exited code sig => left; rfl
  | closed now code sig dir =>
    right; right; left
    refine ⟨now, code, sig, dir, rfl, ?_⟩
    have hterm := closeJob_status_terminal cfg now (s.exitCodeFinal <|> code)
      (s.exitSignalFinal <|> sig) dir
      ({ s with guardActive := false, childInMap := false }).job
    simp only [step]
    cases hcj : closeJob cfg now (s.exitCodeFinal <|> code) (s.exitSignalFinal <|> sig) dir
        ({ s with guardActive := false, childInMap := false }).job with
    | mk j' line =>
      rw [hcj] at hterm
      simpa [pushLogS, pushLog] using hterm
  | stopReq now o =>
    rcases stopCascade_job_cases cfg now s.childInMap o s.job with ⟨_, hj⟩ | ⟨_, hj⟩
    · right; right; right; left
      exact ⟨now, o, rfl, by simp [step, hj]⟩
    · left
      simp [step, hj]
  | subscribe cid => left; rfl

/-! The shared-secret middleware and log-stream delivery. -/

/-- Outcome of the global middleware for one request. -/
inductive AuthDecision where
  | allow | reject401
  deriving Repr, DecidableEq

/-- The API-key middleware:
health and `/jobs/<id>/logs` pass through; everything else is rejected
with 401 unless `X-API-Key` is present, non-empty and equal to the
configured key (`!key || key !== API_KEY`). -/
def apiKeyMiddleware (apiKey : Str) (path : Str) (keyHeader : Option Str) :
    AuthDecision :=
  if (path == str "/health") ||
      ((str "/jobs/").isPrefixOf path && (str "/logs").isSuffixOf path) then .allow
  else
    match keyHeader with
    | none => .reject401
    | some k => if k = [] ∨ k ≠ apiKey then .reject401 else .allow

/-- The frames written to one subscriber, in write order. -/
def deliveredTo (cid : Nat) (s : SupState) : List Str :=
  (s.sent.filter fun p => p.1 == cid).map fun p => p.2

theorem filtermap_clients (cid : Nat) (y : Str) (cl : List Nat) :
    ((cl.map fun c => (c, y)).filter fun p => p.1 == cid).map (fun p => p.2) =
      List.replicate (cl.count cid) y := by
  induction cl with
  | nil => rfl
  | cons a as ih =>
    by_cases h : a = cid
    · subst h
      simp [List.count_cons, ih, List.replicate_succ]
    · simp [List.count_cons, ih, h, Ne.symm h]

theorem deliveredTo_of_sent (cid : Nat) (s' s : SupState) (cl : List Nat) (y : Str)
    (hs : s'.sent = s.sent ++ cl.map fun c => (c, y)) :
    deliveredTo cid s' = deliveredTo cid s ++ List.replicate (cl.count cid) y := by
  simp only [deliveredTo, hs, List.filter_append, List.map_append, filtermap_clients]

theorem pushLogS_deliveredTo (now : Nat) (s : SupState) (line : Str) (cid : Nat) :
    deliveredTo cid (pushLogS now s line) =
      deliveredTo cid s ++ List.replicate (s.clients.count cid) (sseFrame line) :=
  deliveredTo_of_sent cid _ s s.clients (sseFrame line) rfl

theorem foldl_pushLogS_delivery (now : Nat) (f : Str → Str) (cid : Nat) :
    ∀ (L : List Str) (s : SupState), s.clients.count cid = 1 →
      (L.foldl (fun acc l => pushLogS now acc (f l)) s).clients = s.clients ∧
      (L.foldl (fun acc l => pushLogS now acc (f l)) s).allLines =
        s.allLines ++ L.map f ∧
      deliveredTo cid (L.foldl (fun acc l => pushLogS now acc (f l)) s) =
        deliveredTo cid s ++ (L.map f).map sseFrame := by
  intro L
  induction L with
  | nil => intro s _; exact ⟨rfl, by simp, by simp⟩
  | cons l ls ih =>
    intro s h
    have hcl : (pushLogS now s (f l)).clients = s.clients := rfl
    obtain ⟨hc, ha, hd⟩ := ih (pushLogS now s (f l)) (by rw [hcl]; exact h)
    refine ⟨by rw [List.foldl_cons, hc, hcl], ?_, ?_⟩
    · rw [List.foldl_cons, ha]
      simp [pushLogS]
    · rw [List.foldl_cons, hd, pushLogS_deliveredTo now s (f l) cid, h]
      simp

theorem step_delivery (cfg : Config) (s : SupState) (e : Event) (cid : Nat)
    (h : s.clients.count cid = 1) :
    (step cfg s e).clients.count cid = 1 ∧
    ∃ d, (step cfg s e).allLines = s.allLines ++ d ∧
      deliveredTo cid (step cfg s e) = deliveredTo cid s ++ d.map sseFrame := by
  cases e with
  | tick now =>
    simp only [step, tickStep]
    split
    · exact ⟨h, [], by simp⟩
    · split
      · refine ⟨h, [str "timeout -> killed (max)"], rfl, ?_⟩
        rw [deliveredTo_of_sent cid _ s s.clients
          (sseFrame (str "timeout -> killed (max)")) rfl, h]
        rfl
      · split
        · refine ⟨h, [str "timeout -> killed (idle)"], rfl, ?_⟩
          rw [deliveredTo_of_sent cid _ s s.clients
            (sseFrame (str "timeout -> killed (idle)")) rfl, h]
          rfl
        · exact ⟨h, [], by simp⟩
  | data now src chunk =>
    simp only [step]
    obtain ⟨hc, ha, hd⟩ := foldl_pushLogS_delivery now (fun l => src ++ [' '] ++ l) cid
      (((chunk.splitOn '\n').filter (· ≠ []))) { s with lastActivity := now } h
    refine ⟨by simp only [hc]; exact h,
      (((chunk.splitOn '\n').filter (· ≠ [])).map fun l => src ++ [' '] ++ l), ?_, ?_⟩
    · simpa using ha
    · simpa [deliveredTo] using hd
  | childErr now msg =>
    refine ⟨h, [str "error " ++ msg], rfl, ?_⟩
    rw [deliveredTo_of_sent cid _ s s.clients (sseFrame (str "error " ++ msg)) rfl, h]
    rfl
  | exited code sig => exact ⟨h, [], by simp [step], by simp [step, deliveredTo]⟩
  | closed now code sig dir =>
    simp only [step]
    cases hcj : closeJob cfg now (s.exitCodeFinal <|> code) (s.exitSignalFinal <|> sig) dir
        ({ s with guardActive := false, childInMap := false }).job with
    | mk j' line =>
      refine ⟨h, [line], rfl, ?_⟩
      rw [deliveredTo_of_sent cid _ s s.clients (sseFrame line) rfl, h]
      rfl
  | stopReq now o => exact ⟨h, [], by simp [step], by simp [step, deliveredTo]⟩
  | subscribe cid' =>
    simp only [step]
    refine ⟨?_, [], by simp, by simp [deliveredTo]⟩
    split
    · exact h
    · next hmem =>
      rw [List.count_append]
      have : cid' ≠ cid := by
        intro hEq
        subst hEq
        exact hmem (List.count_pos_iff.mp (by omega))
      simp [List.count_cons, this, h]

theorem run_delivery (cfg : Config) (cid : Nat) :
    ∀ (evs : List Event) (s : SupState), s.clients.count cid = 1 →
      (run cfg s evs).clients.count cid = 1 ∧
      ∃ d, (run cfg s evs).allLines = s.allLines ++ d ∧
        deliveredTo cid (run cfg s evs) = deliveredTo cid s ++ d.map sseFrame := by
  intro evs
  induction evs with
  | nil => intro s h; exact ⟨h, [], by simp [run], by simp [run]⟩
  | cons e rest ih =>
    intro s h
    obtain ⟨h1, d1, ha1, hd1⟩ := step_delivery cfg s e cid h
    obtain ⟨h2, d2, ha2, hd2⟩ := ih (step cfg s e) h1
    refine ⟨h2, d1 ++ d2, ?_, ?_⟩
    · show (run cfg (step cfg s e) rest).allLines = _
      rw [ha2, ha1, List.append_assoc]
    · show deliveredTo cid (run cfg (step cfg s e) rest) = _
      rw [hd2, hd1, List.map_append, List.append_assoc]

/-- C7 — the log-stream endpoint (`/jobs/<id>/logs`) is exempt from the
shared-secret check, as is `/health`; every other path is answered 401
when the `X-API-Key` header is absent, empty or wrong.  A log-stream
subscriber (registration modelled from the spec, the handler being absent
from the sources) is sent nothing at registration — no backfill of the
buffered lines — and from then on receives exactly the lines captured
after registration, as SSE frames, in arrival order. -/
theorem C7_logs_auth_and_delivery (apiKey : Str) :
    (∀ (id : Str) (keyHeader : Option Str),
      apiKeyMiddleware apiKey (str "/jobs/" ++ id ++ str "/logs") keyHeader = .allow) ∧
    (∀ keyHeader, apiKeyMiddleware apiKey (str "/health") keyHeader = .allow) ∧
    (∀ path, (path == str "/health") = false →
      ((str "/jobs/").isPrefixOf path && (str "/logs").isSuffixOf path) = false →
      apiKeyMiddleware apiKey path none = .reject401 ∧
      ∀ k, k = [] ∨ k ≠ apiKey →
        apiKeyMiddleware apiKey path (some k) = .reject401) ∧
    (∀ (cfg : Config) (s : SupState) (cid : Nat),
      (step cfg s (.subscribe cid)).sent = s.sent ∧
      (step cfg s (.subscribe cid)).allLines = s.allLines ∧
      cid ∈ (step cfg s (.subscribe cid)).clients) ∧
    (∀ (cfg : Config) (cid : Nat) (evs : List Event) (s : SupState),
      s.clients.count cid = 1 →
      ∃ d, (run cfg s evs).allLines = s.allLines ++ d ∧
        deliveredTo cid (run cfg s evs) = deliveredTo cid s ++ d.map sseFrame) := by
  refine ⟨?_, ?_, ?_, ?_, ?_⟩
  · intro id keyHeader
    have hpre : (str "/jobs/").isPrefixOf (str "/jobs/" ++ id ++ str "/logs") = true :=
      List.isPrefixOf_iff_prefix.mpr
        ((List.prefix_append (str "/jobs/") id).trans
          (List.prefix_append (str "/jobs/" ++ id) (str "/logs")))
    have hsuf : (str "/logs").isSuffixOf (str "/jobs/" ++ id ++ str "/logs") = true :=
      List.isSuffixOf_iff_suffix.mpr (List.suffix_append (str "/jobs/" ++ id) (str "/logs"))
    unfold apiKeyMiddleware
    rw [if_pos (by rw [hpre, hsuf]; simp)]
  · intro keyHeader
    unfold apiKeyMiddleware
    rw [if_pos (by simp)]
  · intro path hne hshape
    constructor
    · unfold apiKeyMiddleware
      rw [if_neg (by simp [hne, hshape])]
    · intro k hk
      unfold apiKeyMiddleware
      rw [if_neg (by simp [hne, hshape])]
      show (if k = [] ∨ k ≠ apiKey then AuthDecision.reject401
        else AuthDecision.allow) = AuthDecision.reject401
      rw [if_pos hk]
  · intro cfg s cid
    refine ⟨rfl, rfl, ?_⟩
    simp only [step]
    split
    · next hmem => exact hmem
    · exact List.mem_append_right _ (List.mem_singleton.mpr rfl)
  · intro cfg cid evs s h
    exact (run_delivery cfg cid evs s h).2

/-- The started supervision state with one registered subscriber (client
7). -/
def subSup : SupState := step demoCfg demoSup (.subscribe 7)

/-- C7 (witness) — the theorem applied concretely: the logs path of a
concrete job id and the health path pass with no key; another path is 401
with a missing and with a wrong key; subscribing sends nothing; and after
a subscription the two lines of a subsequent chunk are delivered to the
subscriber as frames, in order. -/
theorem C7_logs_auth_and_delivery_witness :
    (apiKeyMiddleware (str "sekrit") (str "/jobs/" ++ str "42" ++ str "/logs") none
      = .allow) ∧
    (apiKeyMiddleware (str "sekrit") (str "/health") none = .allow) ∧
    (apiKeyMiddleware (str "sekrit") (str "/jobs") none = .reject401 ∧
     apiKeyMiddleware (str "sekrit") (str "/jobs") (some (str "wrong")) = .reject401) ∧
    (subSup.sent = demoSup.sent ∧ subSup.allLines = demoSup.allLines ∧
     7 ∈ subSup.clients) ∧
    (∃ d, (run demoCfg subSup
        [.data 9 (str "[bot:stdout]") (str "alpha\nbeta")]).allLines =
          subSup.allLines ++ d ∧
      deliveredTo 7 (run demoCfg subSup
        [.data 9 (str "[bot:stdout]") (str "alpha\nbeta")]) =
          deliveredTo 7 subSup ++ d.map sseFrame) :=
  ⟨(C7_logs_auth_and_delivery (str "sekrit")).1 (str "42") none,
   (C7_logs_auth_and_delivery (str "sekrit")).2.1 none,
   ⟨((C7_logs_auth_and_delivery (str "sekrit")).2.2.1 (str "/jobs")
       (by decide) (by decide)).1,
    ((C7_logs_auth_and_delivery (str "sekrit")).2.2.1 (str "/jobs")
       (by decide) (by decide)).2 (str "wrong") (Or.inr (by decide))⟩,
   (C7_logs_auth_and_delivery (str "sekrit")).2.2.2.1 demoCfg demoSup 7,
   (C7_logs_auth_and_delivery (str "sekrit")).2.2.2.2 demoCfg 7
     [.data 9 (str "[bot:stdout]") (str "alpha\nbeta")] subSup (by decide)⟩

end GonFung
